import Mathlib

/-!
Verification of the episode-number resolution and filename-synthesis engine
of `rename.py` (Movie-Renaming-Project).  The Python source is shallowly
embedded below: strings become `String`/`List Char`, the regex operations of
the source are translated character by character, external collaborators
(TMDb title lookup, Ollama inference, the file system) become explicit
function or value parameters, and the unbounded collision `while` loop is
run with enough fuel to be provably equivalent (a pigeonhole argument shows
`existing.length + 1` iterations always reach a free name).

Season and episode numbers are modelled as `Nat`; the extraction
collaborator of the source only ever yields seasons in `[1, 20]` and
episodes in `[1, 50]` (lines 264-270 of `rename.py`), so natural-number
subtraction in the fallback arithmetic coincides with Python's integers on
every reachable input.
-/

namespace MovieRename

/-- ASCII whitespace, the characters matched by the Python regex class
`\s` and stripped by `str.strip()` on the data this engine handles. -/
def isPySpace (c : Char) : Bool :=
  c = ' ' || c = '\t' || c = '\n' || c = '\r' || c = '\x0b' || c = '\x0c'

/-- The regex character class `A-Za-z0-9`. -/
def isAlnumAscii (c : Char) : Bool :=
  ('A' ≤ c && c ≤ 'Z') || ('a' ≤ c && c ≤ 'z') || ('0' ≤ c && c ≤ '9')

/-- The regex character class `\d`. -/
def isDigitChar (c : Char) : Bool := '0' ≤ c && c ≤ '9'

/-- The regex word-character class `\w`, which delimits `\b` boundaries. -/
def isWordChar (c : Char) : Bool := isAlnumAscii c || c = '_'

/-- `re.sub(r'[^A-Za-z0-9\s]', '', s)`: drop every character outside
letters, digits and whitespace (lines 390 and 398 of `rename.py`). -/
def removeNonAlnumWs (s : List Char) : List Char :=
  s.filter (fun c => isAlnumAscii c || isPySpace c)

/-- `re.sub(r'\s+', '.', s)`: every maximal whitespace run becomes a single
dot.  The boolean accumulator records whether the previous character was
part of a whitespace run. -/
def collapseWsAux : Bool → List Char → List Char
  | _, [] => []
  | prevWs, c :: rest =>
    if isPySpace c then
      if prevWs then collapseWsAux true rest else '.' :: collapseWsAux true rest
    else c :: collapseWsAux false rest

/-- The substitution `re.sub(r'\s+', '.', s)` (lines 391 and 399). -/
def collapseWs (s : List Char) : List Char := collapseWsAux false s

/-- Python `str.strip('.')`: remove leading and trailing dots. -/
def stripDots (s : List Char) : List Char :=
  ((s.dropWhile (fun c => c = '.')).reverse.dropWhile (fun c => c = '.')).reverse

/-- Python `str.strip()`: remove leading and trailing whitespace. -/
def pyStrip (s : List Char) : List Char :=
  ((s.dropWhile isPySpace).reverse.dropWhile isPySpace).reverse

/-- One decimal digit as a character. -/
def digitChar : Nat → Char
  | 0 => '0' | 1 => '1' | 2 => '2' | 3 => '3' | 4 => '4'
  | 5 => '5' | 6 => '6' | 7 => '7' | 8 => '8' | _ => '9'

/-- Fuel-driven decimal digit list of a natural number; any `fuel > n`
yields the full representation. -/
def natDigitsAux : Nat → Nat → List Char
  | 0, _ => []
  | fuel + 1, n =>
    if n < 10 then [digitChar n]
    else natDigitsAux fuel (n / 10) ++ [digitChar (n % 10)]

/-- Decimal digits of `n`: the embedding of Python `str(n)` for the
nonnegative integers this engine handles. -/
def natDigits (n : Nat) : List Char := natDigitsAux (n + 1) n

/-- Python `str(n)` as a `String`. -/
def natRepr (n : Nat) : String := ⟨natDigits n⟩

/-- The Python format `{n:0wd}`: pad the decimal digits with zeros on the
left up to width `w`. -/
def padNum (w n : Nat) : List Char :=
  List.replicate (w - (natDigits n).length) '0' ++ natDigits n

/-- Lines 390-391: `re.sub(r'[^A-Za-z0-9\s]', '', title)` followed by
`re.sub(r'\s+', '.', ...).strip('.')[:50]`. -/
def safe_title (title : String) : String :=
  ⟨(stripDots (collapseWs (removeNonAlnumWs title.data))).take 50⟩

/-- Lines 398-399: the show-name sanitisation (no strip, no truncation). -/
def clean_show_name (show_name : String) : String :=
  ⟨collapseWs (removeNonAlnumWs show_name.data)⟩

/-- The fragment `S{final_season:02d}EP{final_episode:03d}` of the
synthesised filenames. -/
def epCode (fs fe : Nat) : String :=
  "S" ++ (⟨padNum 2 fs⟩ : String) ++ "EP" ++ (⟨padNum 3 fe⟩ : String)

/-- The fragment `S{s:02d}E{e:02d}` used in the log entries
(lines 440-441). -/
def sECode (s e : Nat) : String :=
  "S" ++ (⟨padNum 2 s⟩ : String) ++ "E" ++ (⟨padNum 2 e⟩ : String)

/-- Lines 402-413: the base synthesised filename.  The Python conditions
`safe_title and safe_title != str(final_episode)` and `resolution` are
string truthiness tests, i.e. non-emptiness. -/
def base_name (cs : String) (fs fe : Nat) (st res suffix : String) : String :=
  if st ≠ "" ∧ st ≠ natRepr fe then
    if res ≠ "" then cs ++ "." ++ epCode fs fe ++ "." ++ st ++ "." ++ res ++ suffix
    else cs ++ "." ++ epCode fs fe ++ "." ++ st ++ suffix
  else
    if res ≠ "" then cs ++ "." ++ epCode fs fe ++ "." ++ res ++ suffix
    else cs ++ "." ++ epCode fs fe ++ suffix

/-- Lines 421-430: the `_{counter}` collision variant of the filename. -/
def counter_name (cs : String) (fs fe : Nat) (st res suffix : String)
    (counter : Nat) : String :=
  if st ≠ "" ∧ st ≠ natRepr fe then
    if res ≠ "" then
      cs ++ "." ++ epCode fs fe ++ "." ++ st ++ "_" ++ natRepr counter ++ "." ++ res ++ suffix
    else
      cs ++ "." ++ epCode fs fe ++ "." ++ st ++ "_" ++ natRepr counter ++ suffix
  else
    if res ≠ "" then
      cs ++ "." ++ epCode fs fe ++ "_" ++ natRepr counter ++ "." ++ res ++ suffix
    else
      cs ++ "." ++ epCode fs fe ++ "_" ++ natRepr counter ++ suffix

/-- The part of the synthesised name that precedes the counter insertion
point: show name, episode code and (when present) title segment. -/
def nameHead (cs : String) (fs fe : Nat) (st : String) : String :=
  if st ≠ "" ∧ st ≠ natRepr fe then cs ++ "." ++ epCode fs fe ++ "." ++ st
  else cs ++ "." ++ epCode fs fe

/-- The part of the synthesised name that follows the counter insertion
point: resolution tag (when present) and suffix. -/
def nameRest (res suffix : String) : String :=
  if res ≠ "" then "." ++ res ++ suffix else suffix

/-- The sequence of candidate names tried by the collision loop: the base
name first, then the counter variants for counters 1, 2, 3, ... -/
def candidateName (cs : String) (fs fe : Nat) (st res suffix : String) : Nat → String
  | 0 => base_name cs fs fe st res suffix
  | k + 1 => counter_name cs fs fe st res suffix (k + 1)

/-- Lines 419-432: the collision `while` loop.  `existing` is the set of
names already present in the directory (membership embeds
`new_path.exists()`), `orig` the name of the file being renamed
(`new_path != file_path`).  The loop is run on fuel; `existing.length + 1`
iterations provably suffice, see `collisionLoop_finds_free` below. -/
def collisionLoop (cand : Nat → String) (existing : List String) (orig : String) :
    Nat → Nat → String
  | 0, k => cand k
  | fuel + 1, k =>
    if cand k ∈ existing ∧ cand k ≠ orig then collisionLoop cand existing orig fuel (k + 1)
    else cand k

/-- The complete collision-resolved synthesised name for one file. -/
def synthesizeName (cs : String) (fs fe : Nat) (st res suffix : String)
    (existing : List String) (orig : String) : String :=
  collisionLoop (candidateName cs fs fe st res suffix) existing orig
    (existing.length + 1) 0

/-- Case-insensitive `p`, for the alternative `\d{3,4}p`. -/
def isPChar (c : Char) : Bool := c = 'p' || c = 'P'

/-- Case-insensitive `k`, for the alternative `[24]k`. -/
def isKChar (c : Char) : Bool := c = 'k' || c = 'K'

/-- Greedy match of `\d{3,4}p` (with `re.IGNORECASE`) at the head of the
character list: four digits before `p` are preferred over three. -/
def matchAlt1 : List Char → Option (List Char)
  | d1 :: d2 :: d3 :: rest =>
    if isDigitChar d1 && isDigitChar d2 && isDigitChar d3 then
      match rest with
      | c4 :: c5 :: _ =>
        if isDigitChar c4 && isPChar c5 then some [d1, d2, d3, c4, c5]
        else if isPChar c4 then some [d1, d2, d3, c4]
        else none
      | [c4] => if isPChar c4 then some [d1, d2, d3, c4] else none
      | [] => none
    else none
  | _ => none

/-- Match of `[24]k` (with `re.IGNORECASE`) at the head of the list. -/
def matchAlt2 : List Char → Option (List Char)
  | c1 :: c2 :: _ =>
    if (c1 = '2' || c1 = '4') && isKChar c2 then some [c1, c2] else none
  | _ => none

/-- `re.search` of `(\d{3,4}p|[24]k)` (line 69): leftmost match wins, and
at equal start positions the first alternative is preferred. -/
def resSearchAux : List Char → Option (List Char)
  | [] => none
  | c :: rest =>
    match matchAlt1 (c :: rest) with
    | some m => some m
    | none =>
      match matchAlt2 (c :: rest) with
      | some m => some m
      | none => resSearchAux rest

/-- `res_regex.search(filename)` returning the matched group. -/
def resSearch (s : String) : Option String :=
  (resSearchAux s.data).map (fun m => (⟨m⟩ : String))

/-- ASCII `str.lower()` on one character. -/
def pyLowerChar (c : Char) : Char :=
  if 'A' ≤ c && c ≤ 'Z' then Char.ofNat (c.toNat + 32) else c

/-- ASCII `str.lower()`. -/
def pyLower (s : String) : String := ⟨s.data.map pyLowerChar⟩

/-- Lines 394-395: `resolution = res_match.group(1).lower() if res_match
else ""`. -/
def resolutionOf (filename : String) : String :=
  match resSearch filename with
  | some m => pyLower m
  | none => ""

/-- Python truthiness of an `Optional[int]`. -/
def pyTruthy : Option Nat → Bool
  | none => false
  | some n => n ≠ 0

/-- Python truthiness of an `Optional[str]`. -/
def strTruthy : Option String → Bool
  | none => false
  | some s => s ≠ ""

/-- Lines 344-365: choice of the final season/episode pair.  For anime the
continuous index supplied by the inference collaborator is used when
truthy, otherwise the 12-episodes-per-season fallback arithmetic; regular
shows keep the detected numbers. -/
def resolveEpisode (is_anime : Bool) (continuous_ep : Option Nat) (ds de : Nat) :
    Nat × Nat :=
  if is_anime then
    if pyTruthy continuous_ep then (1, continuous_ep.getD 0)
    else (1, if 1 < ds then de + (ds - 1) * 12 else de)
  else (ds, de)

/-- Lines 367-383: the title lookup with the anime identity fallback.
`titleOf` embeds `get_episode_title` for the show at hand.  When the first
lookup is falsy and the file is anime with final season 1, the code retries
with the detected pair and reverts the final numbers to the detected pair
in both the success and the failure branch of that retry. -/
def afterTitleFallback (is_anime : Bool) (titleOf : Nat → Nat → Option String)
    (fs fe ds de : Nat) : Nat × Nat × Option String :=
  if strTruthy (titleOf fs fe) = false ∧ is_anime = true ∧ fs = 1 then
    (ds, de, titleOf ds de)
  else (fs, fe, titleOf fs fe)

/-- The episode-locator pipeline for one file: resolution followed by the
title lookup and its identity fallback. -/
def locateFile (is_anime : Bool) (cont : Option Nat)
    (titleOf : Nat → Nat → Option String) (ds de : Nat) :
    Nat × Nat × Option String :=
  afterTitleFallback is_anime titleOf
    (resolveEpisode is_anime cont ds de).1
    (resolveEpisode is_anime cont ds de).2 ds de

/-- Lines 385-387: a falsy title is replaced by the generic
`f"{final_episode}"`. -/
def finalTitle (t : Option String) (fe : Nat) : String :=
  if strTruthy t then t.getD "" else natRepr fe

/-- Outcome of the `subprocess.run(['ollama', ...], timeout=30)` call in
`ask_ollama_for_anime_mapping`: either the call raised
(`TimeoutExpired` or any other exception), or it completed with a return
code and captured stdout. -/
inductive OllamaCallResult where
  | callFailure : OllamaCallResult
  | completed (returncode : Int) (stdout : String) : OllamaCallResult

/-- Maximal runs of word characters in a string; the accumulator holds the
current run reversed. -/
def wordRunsAux : List Char → List Char → List (List Char)
  | acc, [] => if acc.isEmpty then [] else [acc.reverse]
  | acc, c :: rest =>
    if isWordChar c then wordRunsAux (c :: acc) rest
    else if acc.isEmpty then wordRunsAux [] rest
    else acc.reverse :: wordRunsAux [] rest

/-- `re.findall(r'\b\d+\b', s)`: exactly the maximal word-character runs
that consist solely of digits (a digit run adjacent to another word
character has no `\b` boundary and is not matched). -/
def findallNumbers (s : List Char) : List (List Char) :=
  (wordRunsAux [] s).filter (fun r => r.all isDigitChar)

/-- Python `int()` on a nonempty string of decimal digits. -/
def parseDigits (ds : List Char) : Nat :=
  ds.foldl (fun acc c => 10 * acc + (c.toNat - 48)) 0

/-- Lines 167-188: parse the stripped Ollama stdout.  A literal `UNKNOWN`
yields nothing; otherwise the last number found by
`re.findall(r'\b\d+\b', ...)` is accepted only inside `[1, 200]`. -/
def parseOllamaResponse (stdout : String) : Option Nat :=
  if pyStrip stdout.data = "UNKNOWN".data then none
  else
    match (findallNumbers (pyStrip stdout.data)).getLast? with
    | some dgs =>
      if 1 ≤ parseDigits dgs ∧ parseDigits dgs ≤ 200 then some (parseDigits dgs) else none
    | none => none

/-- Lines 158-195: `ask_ollama_for_anime_mapping`, abstracted over the
subprocess outcome.  A raised exception or timeout and a nonzero return
code all yield `None`. -/
def ask_ollama_for_anime_mapping : OllamaCallResult → Option Nat
  | .callFailure => none
  | .completed rc out => if rc ≠ 0 then none else parseOllamaResponse out

/-- Lines 438-444: one entry of the per-show rename log. -/
structure LogEntry where
  original : String
  detected : String
  final : String
  new_name : String
  title : String
deriving DecidableEq

/-- The fully synthesised, collision-resolved target name for one file
(lines 344-432 composed). -/
def fileSynthesizedName (show_name : String) (is_anime : Bool) (ds de : Nat)
    (cont : Option Nat) (titleOf : Nat → Nat → Option String)
    (filename suffix : String) (existing : List String) : String :=
  synthesizeName (clean_show_name show_name)
    (locateFile is_anime cont titleOf ds de).1
    (locateFile is_anime cont titleOf ds de).2.1
    (safe_title (finalTitle (locateFile is_anime cont titleOf ds de).2.2
      (locateFile is_anime cont titleOf ds de).2.1))
    (resolutionOf filename) suffix existing filename

/-- The pre-collision base name for the same file, i.e. the name synthesised
when no collision is present. -/
def fileBaseName (show_name : String) (is_anime : Bool) (ds de : Nat)
    (cont : Option Nat) (titleOf : Nat → Nat → Option String)
    (filename suffix : String) : String :=
  base_name (clean_show_name show_name)
    (locateFile is_anime cont titleOf ds de).1
    (locateFile is_anime cont titleOf ds de).2.1
    (safe_title (finalTitle (locateFile is_anime cont titleOf ds de).2.2
      (locateFile is_anime cont titleOf ds de).2.1))
    (resolutionOf filename) suffix

/-- Lines 333-452: processing of one file of the batch.  `episode_info`
embeds the extraction collaborator's answer, `contFor` the continuous
inference, `titleOf` the title lookup, `existing` the directory contents
and `renameSucceeds` the outcome of `file_path.rename` (an exception is
caught and only logged).  The result is the updated log list together with
the rename operation attempted, if any, as `(new_name, success)`. -/
def processFile (show_name : String) (is_anime : Bool)
    (episode_info : Option (Nat × Nat))
    (contFor : Nat → Nat → Option Nat)
    (titleOf : Nat → Nat → Option String)
    (filename suffix : String) (existing : List String)
    (dry_run renameSucceeds : Bool)
    (log : List LogEntry) : List LogEntry × Option (String × Bool) :=
  match episode_info with
  | none => (log, none)
  | some (ds, de) =>
    let loc := locateFile is_anime (contFor ds de) titleOf ds de
    let title := finalTitle loc.2.2 loc.2.1
    let new_name :=
      fileSynthesizedName show_name is_anime ds de (contFor ds de) titleOf
        filename suffix existing
    if new_name = filename then (log, none)
    else
      (log ++ [⟨filename, sECode ds de, sECode loc.1 loc.2.1, new_name, title⟩],
        if dry_run then none else some (new_name, renameSucceeds))

/-- Modelled from the claim's wording, for comparison only (C7): the title
sanitisation as the specification describes it — removal of characters
outside alphanumerics and whitespace, collapse of whitespace runs to a
single dot, truncation to 50 characters — without the `strip('.')` step
the code performs. -/
def claimSanitizeTitle (t : String) : String :=
  ⟨(collapseWs (removeNonAlnumWs t.data)).take 50⟩

/-! ## Supporting lemmas -/

theorem digitChar_inj {d1 d2 : Nat} (h1 : d1 < 10) (h2 : d2 < 10) :
    digitChar d1 = digitChar d2 → d1 = d2 := by
  interval_cases d1 <;> interval_cases d2 <;> decide

theorem natDigitsAux_ne_nil {fuel n : Nat} (h : n < fuel) : natDigitsAux fuel n ≠ [] := by
  cases fuel with
  | zero => omega
  | succ fuel =>
    simp only [natDigitsAux]
    split <;> simp

theorem natDigitsAux_inj : ∀ f1 : Nat, ∀ {f2 a b : Nat}, a < f1 → b < f2 →
    natDigitsAux f1 a = natDigitsAux f2 b → a = b := by
  intro f1
  induction f1 with
  | zero => intro f2 a b h1 _ _; omega
  | succ f1 ih =>
    intro f2 a b h1 h2 h
    cases f2 with
    | zero => omega
    | succ f2 =>
      by_cases ha : a < 10 <;> by_cases hb : b < 10
      · simp only [natDigitsAux, if_pos ha, if_pos hb] at h
        injection h with h' _
        exact digitChar_inj ha hb h'
      · exfalso
        have hne := natDigitsAux_ne_nil (show b / 10 < f2 by omega)
        have hpos := List.length_pos.mpr hne
        simp only [natDigitsAux, if_pos ha, if_neg hb] at h
        have hlen := congrArg List.length h
        simp only [List.length_append, List.length_cons, List.length_nil] at hlen
        omega
      · exfalso
        have hne := natDigitsAux_ne_nil (show a / 10 < f1 by omega)
        have hpos := List.length_pos.mpr hne
        simp only [natDigitsAux, if_neg ha, if_pos hb] at h
        have hlen := congrArg List.length h
        simp only [List.length_append, List.length_cons, List.length_nil] at hlen
        omega
      · simp only [natDigitsAux, if_neg ha, if_neg hb] at h
        obtain ⟨h1', h2'⟩ := List.append_inj' h (by simp)
        have hd : a / 10 = b / 10 := ih (by omega) (by omega) h1'
        injection h2' with hc _
        have hm : a % 10 = b % 10 :=
          digitChar_inj (Nat.mod_lt _ (by omega)) (Nat.mod_lt _ (by omega)) hc
        omega

theorem natDigits_ne_nil (n : Nat) : natDigits n ≠ [] :=
  natDigitsAux_ne_nil (Nat.lt_succ_self n)

theorem natDigits_inj {a b : Nat} (h : natDigits a = natDigits b) : a = b :=
  natDigitsAux_inj (a + 1) (Nat.lt_succ_self a) (Nat.lt_succ_self b) h

theorem base_name_eq (cs : String) (fs fe : Nat) (st res suffix : String) :
    base_name cs fs fe st res suffix = nameHead cs fs fe st ++ nameRest res suffix := by
  by_cases h1 : st ≠ "" ∧ st ≠ natRepr fe <;> by_cases h2 : res ≠ "" <;>
    (apply String.ext;
     simp [base_name, nameHead, nameRest, h1, h2, List.append_assoc])

theorem counter_name_eq (cs : String) (fs fe : Nat) (st res suffix : String) (k : Nat) :
    counter_name cs fs fe st res suffix k
      = nameHead cs fs fe st ++ "_" ++ natRepr k ++ nameRest res suffix := by
  by_cases h1 : st ≠ "" ∧ st ≠ natRepr fe <;> by_cases h2 : res ≠ "" <;>
    (apply String.ext;
     simp [counter_name, nameHead, nameRest, h1, h2, List.append_assoc])

theorem counter_name_inj (cs : String) (fs fe : Nat) (st res suffix : String)
    {j k : Nat}
    (h : counter_name cs fs fe st res suffix j = counter_name cs fs fe st res suffix k) :
    j = k := by
  rw [counter_name_eq, counter_name_eq] at h
  have hd := congrArg String.data h
  simp only [String.data_append, List.append_assoc] at hd
  have h1 := List.append_cancel_left hd
  have h2 := List.append_cancel_left h1
  have h3 := List.append_cancel_right h2
  exact natDigits_inj h3

theorem base_name_ne_counter_name (cs : String) (fs fe : Nat) (st res suffix : String)
    (k : Nat) :
    base_name cs fs fe st res suffix ≠ counter_name cs fs fe st res suffix k := by
  intro h
  rw [base_name_eq, counter_name_eq] at h
  have hd := congrArg (fun s : String => s.data.length) h
  simp only [String.data_append, List.length_append] at hd
  have hu : ("_" : String).data.length = 1 := rfl
  have hk : (natRepr k).data = natDigits k := rfl
  have hpos := List.length_pos.mpr (natDigits_ne_nil k)
  rw [hu, hk] at hd
  omega

theorem candidateName_inj (cs : String) (fs fe : Nat) (st res suffix : String) :
    Function.Injective (candidateName cs fs fe st res suffix) := by
  intro j k h
  cases j with
  | zero =>
    cases k with
    | zero => rfl
    | succ k => exact absurd h (base_name_ne_counter_name cs fs fe st res suffix (k + 1))
  | succ j =>
    cases k with
    | zero => exact absurd h.symm (base_name_ne_counter_name cs fs fe st res suffix (j + 1))
    | succ k => exact counter_name_inj cs fs fe st res suffix h

theorem exists_free_candidate (cand : Nat → String) (hinj : Function.Injective cand)
    (existing : List String) :
    ∃ j, j ≤ existing.length ∧ cand j ∉ existing := by
  by_contra hcon
  push_neg at hcon
  have hsub : (Finset.range (existing.length + 1)).image cand ⊆ existing.toFinset := by
    intro x hx
    simp only [Finset.mem_image, Finset.mem_range] at hx
    obtain ⟨j, hj, rfl⟩ := hx
    exact List.mem_toFinset.mpr (hcon j (by omega))
  have hcard := Finset.card_le_card hsub
  rw [Finset.card_image_of_injective _ hinj, Finset.card_range] at hcard
  have hle : existing.toFinset.card ≤ existing.length := List.toFinset_card_le existing
  omega

theorem collisionLoop_spec (cand : Nat → String) (existing : List String) (orig : String) :
    ∀ fuel k, (∃ j, k ≤ j ∧ j < k + fuel ∧ ¬(cand j ∈ existing ∧ cand j ≠ orig)) →
      ∃ j, k ≤ j ∧ ¬(cand j ∈ existing ∧ cand j ≠ orig) ∧
        (∀ i, k ≤ i → i < j → cand i ∈ existing ∧ cand i ≠ orig) ∧
        collisionLoop cand existing orig fuel k = cand j := by
  intro fuel
  induction fuel with
  | zero =>
    intro k h
    obtain ⟨j, h1, h2, _⟩ := h
    omega
  | succ fuel ih =>
    intro k h
    by_cases hk : cand k ∈ existing ∧ cand k ≠ orig
    · obtain ⟨j, h1, h2, h3⟩ := h
      have hjk : j ≠ k := by
        intro he
        subst he
        exact h3 hk
      obtain ⟨j', hA, hB, hC, hD⟩ := ih (k + 1) ⟨j, by omega, by omega, h3⟩
      refine ⟨j', by omega, hB, ?_, ?_⟩
      · intro i hi1 hi2
        rcases Nat.lt_or_ge i (k + 1) with hlt | hge
        · have hik : i = k := by omega
          subst hik
          exact hk
        · exact hC i hge hi2
      · simp only [collisionLoop]
        rw [if_pos hk]
        exact hD
    · refine ⟨k, Nat.le_refl k, hk, ?_, ?_⟩
      · intro i hi1 hi2; omega
      · simp only [collisionLoop]
        rw [if_neg hk]

theorem synthesizeName_spec (cs : String) (fs fe : Nat) (st res suffix orig : String)
    (existing : List String) :
    ∃ j, ¬(candidateName cs fs fe st res suffix j ∈ existing ∧
           candidateName cs fs fe st res suffix j ≠ orig) ∧
      (∀ i, i < j → candidateName cs fs fe st res suffix i ∈ existing ∧
        candidateName cs fs fe st res suffix i ≠ orig) ∧
      synthesizeName cs fs fe st res suffix existing orig
        = candidateName cs fs fe st res suffix j := by
  obtain ⟨j0, hj0, hfree⟩ :=
    exists_free_candidate _ (candidateName_inj cs fs fe st res suffix) existing
  obtain ⟨j, _, h2, h3, h4⟩ := collisionLoop_spec _ existing orig (existing.length + 1) 0
    ⟨j0, by omega, by omega, fun hc => hfree hc.1⟩
  exact ⟨j, h2, fun i hi => h3 i (by omega) hi, h4⟩

theorem synthesizeName_of_base_eq (cs : String) (fs fe : Nat) (st res suffix : String)
    (existing : List String) (orig : String)
    (h : base_name cs fs fe st res suffix = orig) :
    synthesizeName cs fs fe st res suffix existing orig = orig := by
  unfold synthesizeName
  simp only [collisionLoop]
  rw [if_neg]
  · exact h
  · intro hc
    exact hc.2 h

theorem matchAlt1_ne_nil {cs m : List Char} (h : matchAlt1 cs = some m) : m ≠ [] := by
  unfold matchAlt1 at h
  repeat' split at h
  all_goals (try injection h with h)
  all_goals (try subst h)
  all_goals simp_all

theorem matchAlt2_ne_nil {cs m : List Char} (h : matchAlt2 cs = some m) : m ≠ [] := by
  unfold matchAlt2 at h
  repeat' split at h
  all_goals (try injection h with h)
  all_goals (try subst h)
  all_goals simp_all

theorem resSearchAux_ne_nil : ∀ {s m : List Char}, resSearchAux s = some m → m ≠ [] := by
  intro s
  induction s with
  | nil => intro m h; simp [resSearchAux] at h
  | cons c rest ih =>
    intro m h
    unfold resSearchAux at h
    split at h
    · rename_i m1 heq
      injection h with h'
      subst h'
      exact matchAlt1_ne_nil heq
    · split at h
      · rename_i m2 heq
        injection h with h'
        subst h'
        exact matchAlt2_ne_nil heq
      · exact ih h

/-! ## Claim theorems -/

/-- C1: for an anime (continuous-candidate) show whose continuous-mapping
inference yields no usable result (`NoMapping`), the engine sets
`final_season = 1` and `final_episode = detected_episode +
(detected_season - 1) * 12` when `detected_season > 1`, and
`final_episode = detected_episode` when `detected_season = 1`
(lines 354-361 of `rename.py`). -/
theorem fallback_arithmetic_determinism (ds de : Nat) :
    (1 < ds → resolveEpisode true none ds de = (1, de + (ds - 1) * 12)) ∧
    (ds = 1 → resolveEpisode true none ds de = (1, de)) := by
  constructor
  · intro h
    simp [resolveEpisode, pyTruthy, h]
  · intro h
    subst h
    simp [resolveEpisode, pyTruthy]

theorem fallback_arithmetic_determinism_witness :
    resolveEpisode true none 2 3 = (1, 15) ∧ resolveEpisode true none 1 7 = (1, 7) :=
  ⟨by simpa using (fallback_arithmetic_determinism 2 3).1 (by omega),
    (fallback_arithmetic_determinism 1 7).2 rfl⟩

/-- C2: for a catalog entry that is not a continuous candidate, episode
resolution is the identity for naming: the final pair equals the detected
pair verbatim, whatever the inference and title-lookup collaborators
return (lines 362-365; the anime-only fallback at 371-383 does not
fire). -/
theorem identity_for_non_continuous (cont : Option Nat)
    (titleOf : Nat → Nat → Option String) (ds de : Nat) :
    (locateFile false cont titleOf ds de).1 = ds ∧
    (locateFile false cont titleOf ds de).2.1 = de := by
  simp [locateFile, resolveEpisode, afterTitleFallback]

/-- C3: when continuous renumbering was applied to an anime file but the
title lookup for `(1, continuous episode)` is falsy, a second lookup with
the original detected pair is made; if it succeeds, the final result
reverts to the detected pair with that title (lines 371-378). -/
theorem identity_fallback_on_title_miss (ce ds de : Nat)
    (titleOf : Nat → Nat → Option String) (t : String)
    (hce : 0 < ce)
    (hmiss : strTruthy (titleOf 1 ce) = false)
    (hhit : titleOf ds de = some t) (_ht : t ≠ "") :
    locateFile true (some ce) titleOf ds de = (ds, de, some t) := by
  have hne : ce ≠ 0 := by omega
  have hres : resolveEpisode true (some ce) ds de = (1, ce) := by
    simp [resolveEpisode, pyTruthy, hne]
  simp [locateFile, hres, afterTitleFallback, hmiss, hhit]

theorem identity_fallback_on_title_miss_witness :
    locateFile true (some 15)
      (fun s _ => if s = 2 then some "Arc Two Begins" else none) 2 3
      = (2, 3, some "Arc Two Begins") :=
  identity_fallback_on_title_miss 15 2 3
    (fun s _ => if s = 2 then some "Arc Two Begins" else none) "Arc Two Begins"
    (by omega) (by decide) (by decide) (by decide)

/-- C4: a continuous-inference integer is accepted only inside `[1, 200]`;
any out-of-range result, non-parsable response, nonzero return code or
call failure/timeout yields `None`, on which the engine applies the
fallback arithmetic (lines 158-195 and 354-361). -/
theorem ollama_sanity_bound (r : OllamaCallResult) :
    (∀ n, ask_ollama_for_anime_mapping r = some n → 1 ≤ n ∧ n ≤ 200) ∧
    (ask_ollama_for_anime_mapping r = none →
      ∀ ds de : Nat, resolveEpisode true (ask_ollama_for_anime_mapping r) ds de
        = (1, if 1 < ds then de + (ds - 1) * 12 else de)) := by
  constructor
  · intro n h
    cases r with
    | callFailure => simp [ask_ollama_for_anime_mapping] at h
    | completed rc out =>
      simp only [ask_ollama_for_anime_mapping] at h
      split at h
      · exact absurd h (by simp)
      · unfold parseOllamaResponse at h
        split at h
        · exact absurd h (by simp)
        · split at h
          · split at h
            · rename_i hbound
              injection h with h'
              subst h'
              exact hbound
            · exact absurd h (by simp)
          · exact absurd h (by simp)
  · intro h ds de
    rw [h]
    simp [resolveEpisode, pyTruthy]

theorem ollama_sanity_bound_witness :
    ask_ollama_for_anime_mapping (.completed 0 "999") = none ∧
    resolveEpisode true (ask_ollama_for_anime_mapping (.completed 0 "999")) 2 3
      = (1, if 1 < 2 then 3 + (2 - 1) * 12 else 3) :=
  ⟨by decide, (ollama_sanity_bound (.completed 0 "999")).2 (by decide) 2 3⟩

/-- C5: when the base synthesised name collides with pre-existing paths
(none of which is the file being renamed), the engine returns the
counter variant `_{k}` for the least free counter `k ≥ 1` — the counter
is inserted right after the title segment (or after the episode code if
no title) and before the resolution tag and suffix — every smaller
counter variant collides, and the returned name is not among the existing
paths (lines 419-432). -/
theorem collision_counter_spec (cs : String) (fs fe : Nat) (st res suffix orig : String)
    (existing : List String)
    (horig : orig ∉ existing)
    (hbase : base_name cs fs fe st res suffix ∈ existing) :
    ∃ k, 1 ≤ k ∧
      synthesizeName cs fs fe st res suffix existing orig
        = counter_name cs fs fe st res suffix k ∧
      synthesizeName cs fs fe st res suffix existing orig ∉ existing ∧
      counter_name cs fs fe st res suffix k
        = nameHead cs fs fe st ++ "_" ++ natRepr k ++ nameRest res suffix ∧
      (∀ j, 1 ≤ j → j < k → counter_name cs fs fe st res suffix j ∈ existing) := by
  obtain ⟨j, h1, h2, h3⟩ := synthesizeName_spec cs fs fe st res suffix orig existing
  have hfree : candidateName cs fs fe st res suffix j ∉ existing := by
    by_cases he : candidateName cs fs fe st res suffix j = orig
    · rw [he]; exact horig
    · intro hmem; exact h1 ⟨hmem, he⟩
  have hj : j ≠ 0 := by
    intro he
    subst he
    exact hfree hbase
  obtain ⟨m, rfl⟩ : ∃ m, j = m + 1 := ⟨j - 1, by omega⟩
  refine ⟨m + 1, by omega, h3, ?_, counter_name_eq cs fs fe st res suffix (m + 1), ?_⟩
  · rw [h3]; exact hfree
  · intro i hi1 hi2
    obtain ⟨i', rfl⟩ : ∃ i'', i = i'' + 1 := ⟨i - 1, by omega⟩
    exact (h2 (i' + 1) hi2).1

theorem collision_counter_spec_witness :
    "x.mkv" ∉ ["Show.S01EP002.T.mkv"] ∧
    base_name "Show" 1 2 "T" "" ".mkv" ∈ ["Show.S01EP002.T.mkv"] ∧
    (∃ k, 1 ≤ k ∧
      synthesizeName "Show" 1 2 "T" "" ".mkv" ["Show.S01EP002.T.mkv"] "x.mkv"
        = counter_name "Show" 1 2 "T" "" ".mkv" k ∧
      synthesizeName "Show" 1 2 "T" "" ".mkv" ["Show.S01EP002.T.mkv"] "x.mkv"
        ∉ ["Show.S01EP002.T.mkv"] ∧
      counter_name "Show" 1 2 "T" "" ".mkv" k
        = nameHead "Show" 1 2 "T" ++ "_" ++ natRepr k ++ nameRest "" ".mkv" ∧
      (∀ j, 1 ≤ j → j < k →
        counter_name "Show" 1 2 "T" "" ".mkv" j ∈ ["Show.S01EP002.T.mkv"])) :=
  ⟨by decide, by decide,
    collision_counter_spec "Show" 1 2 "T" "" ".mkv" "x.mkv" ["Show.S01EP002.T.mkv"]
      (by decide) (by decide)⟩

/-- C6: a file already bearing its canonical synthesised name is left
alone: the collision-resolved synthesis returns the original name and
processing yields "no rename needed" — no log entry is appended and no
rename is attempted, so a second run performs no second rename
(lines 434-436). -/
theorem synthesis_idempotent (show_name : String) (is_anime : Bool) (ds de : Nat)
    (contFor : Nat → Nat → Option Nat) (titleOf : Nat → Nat → Option String)
    (filename suffix : String) (existing : List String)
    (dry_run renameSucceeds : Bool) (log : List LogEntry)
    (hcanon : fileBaseName show_name is_anime ds de (contFor ds de) titleOf filename suffix
      = filename) :
    fileSynthesizedName show_name is_anime ds de (contFor ds de) titleOf filename suffix
      existing = filename ∧
    processFile show_name is_anime (some (ds, de)) contFor titleOf filename suffix existing
      dry_run renameSucceeds log = (log, none) := by
  have hsyn : fileSynthesizedName show_name is_anime ds de (contFor ds de) titleOf
      filename suffix existing = filename := by
    unfold fileBaseName at hcanon
    unfold fileSynthesizedName
    exact synthesizeName_of_base_eq _ _ _ _ _ _ _ _ hcanon
  refine ⟨hsyn, ?_⟩
  simp only [processFile]
  rw [if_pos hsyn]

theorem synthesis_idempotent_witness :
    fileBaseName "Example Show" false 2 5 none (fun _ _ => some "The Return")
      "Example.Show.S02EP005.The.Return.1080p.mkv" ".mkv"
      = "Example.Show.S02EP005.The.Return.1080p.mkv" ∧
    fileSynthesizedName "Example Show" false 2 5 none (fun _ _ => some "The Return")
      "Example.Show.S02EP005.The.Return.1080p.mkv" ".mkv"
      ["Example.Show.S02EP005.The.Return.1080p.mkv"]
      = "Example.Show.S02EP005.The.Return.1080p.mkv" ∧
    processFile "Example Show" false (some (2, 5)) (fun _ _ => none)
      (fun _ _ => some "The Return") "Example.Show.S02EP005.The.Return.1080p.mkv" ".mkv"
      ["Example.Show.S02EP005.The.Return.1080p.mkv"] false true [] = ([], none) := by
  have h := synthesis_idempotent "Example Show" false 2 5 (fun _ _ => none)
    (fun _ _ => some "The Return") "Example.Show.S02EP005.The.Return.1080p.mkv" ".mkv"
    ["Example.Show.S02EP005.The.Return.1080p.mkv"] false true [] (by decide)
  exact ⟨by decide, h.1, h.2⟩

/-- C7 as stated fails on the code: before truncation the code also strips
leading and trailing dots (`.strip('.')`, line 391), so a title with
leading or trailing whitespace is not sanitised to the string the claim
describes (strip characters outside alphanumerics and whitespace, collapse
whitespace runs to a single dot, truncate to 50). -/
theorem title_sanitize_counterexample :
    safe_title " Hello World " = "Hello.World" ∧
    claimSanitizeTitle " Hello World " = ".Hello.World." ∧
    safe_title " Hello World " ≠ claimSanitizeTitle " Hello World " :=
  ⟨by decide, by decide, by decide⟩

/-- C7 (amended): the resolved title is sanitised — characters outside
alphanumerics and whitespace removed, whitespace runs collapsed to a
single dot, leading and trailing dots stripped — and truncated to 50
characters; if the sanitised title is empty or equals the decimal string
of `final_episode`, the synthesised filename omits the title segment
entirely (lines 390-391 and 402-413). -/
theorem title_sanitize_amended (t cs : String) (fs fe : Nat) (res suffix : String) :
    (safe_title t).data.length ≤ 50 ∧
    ((safe_title t = "" ∨ safe_title t = natRepr fe) →
      base_name cs fs fe (safe_title t) res suffix =
        (if res ≠ "" then cs ++ "." ++ epCode fs fe ++ "." ++ res ++ suffix
         else cs ++ "." ++ epCode fs fe ++ suffix)) := by
  constructor
  · simp only [safe_title, List.length_take]
    omega
  · intro h
    rcases h with h | h <;> simp [base_name, h]

theorem title_sanitize_amended_witness :
    (safe_title "7").data.length ≤ 50 ∧
    (safe_title "7" = "" ∨ safe_title "7" = natRepr 7) ∧
    base_name "A" 1 7 (safe_title "7") "" ".mkv" = "A.S01EP007.mkv" := by
  refine ⟨(title_sanitize_amended "7" "A" 1 7 "" ".mkv").1, Or.inr (by decide), ?_⟩
  have h := (title_sanitize_amended "7" "A" 1 7 "" ".mkv").2 (Or.inr (by decide))
  rw [h]
  decide

/-- C8 as stated fails on the code: the matched resolution tag is
lowercased (`res_match.group(1).lower()`, line 395), so the uppercase tag
`4K` present in the input filename is not passed through unmodified into
the synthesised name. -/
theorem resolution_tag_counterexample :
    resSearch "Show.S01E01.4K.mkv" = some "4K" ∧
    resolutionOf "Show.S01E01.4K.mkv" = "4k" ∧
    base_name "Show" 1 1 "" (resolutionOf "Show.S01E01.4K.mkv") ".mkv"
      = "Show.S01EP001.4k.mkv" ∧
    "Show.S01EP001.4k.mkv" ≠ "Show.S01EP001.4K.mkv" :=
  ⟨by decide, by decide, by decide, by decide⟩

/-- C8 (amended): the first resolution tag matched (case-insensitively) in
the input filename is passed through into the synthesised filename
lowercased, as a dot-separated segment immediately before the suffix
(lines 394-395 and 402-413). -/
theorem resolution_tag_lowercased (fn tag : String)
    (h : resSearch fn = some tag) (cs : String) (fs fe : Nat) (st suffix : String) :
    resolutionOf fn = pyLower tag ∧
    pyLower tag ≠ "" ∧
    ∃ pre : String,
      base_name cs fs fe st (resolutionOf fn) suffix
        = pre ++ "." ++ pyLower tag ++ suffix := by
  have hres : resolutionOf fn = pyLower tag := by
    unfold resolutionOf
    rw [h]
  have hnil : tag.data ≠ [] := by
    unfold resSearch at h
    cases hm : resSearchAux fn.data with
    | none => rw [hm] at h; simp at h
    | some m =>
      rw [hm] at h
      have hmk : (⟨m⟩ : String) = tag := Option.some.inj h
      subst hmk
      exact resSearchAux_ne_nil hm
  have hne : pyLower tag ≠ "" := by
    intro he
    have hdata : (pyLower tag).data = [] := by rw [he]
    simp only [pyLower, List.map_eq_nil_iff] at hdata
    exact hnil hdata
  refine ⟨hres, hne, ?_⟩
  rw [hres]
  by_cases h1 : st ≠ "" ∧ st ≠ natRepr fe
  · refine ⟨cs ++ "." ++ epCode fs fe ++ "." ++ st, ?_⟩
    unfold base_name
    rw [if_pos h1, if_pos hne]
  · refine ⟨cs ++ "." ++ epCode fs fe, ?_⟩
    unfold base_name
    rw [if_neg h1, if_pos hne]

theorem resolution_tag_lowercased_witness :
    resSearch "a.1080p.mkv" = some "1080p" ∧
    (resolutionOf "a.1080p.mkv" = pyLower "1080p" ∧
     pyLower "1080p" ≠ "" ∧
     ∃ pre : String,
       base_name "A" 1 2 "" (resolutionOf "a.1080p.mkv") ".mkv"
         = pre ++ "." ++ pyLower "1080p" ++ ".mkv") :=
  ⟨by decide,
    resolution_tag_lowercased "a.1080p.mkv" "1080p" (by decide) "A" 1 2 "" ".mkv"⟩

/-- C9: when continuous renumbering was applied to an anime file and the
title lookup fails for both the continuous pair and the original detected
pair, the final numbers used for the output are the original detected
pair — the continuous mapping is silently abandoned and the generic title
is the decimal episode number (lines 379-387). -/
theorem silent_identity_on_double_title_miss (ce ds de : Nat)
    (titleOf : Nat → Nat → Option String)
    (hce : 0 < ce)
    (hmiss1 : strTruthy (titleOf 1 ce) = false)
    (hmiss2 : strTruthy (titleOf ds de) = false) :
    locateFile true (some ce) titleOf ds de = (ds, de, titleOf ds de) ∧
    finalTitle (titleOf ds de) de = natRepr de := by
  have hne : ce ≠ 0 := by omega
  have hres : resolveEpisode true (some ce) ds de = (1, ce) := by
    simp [resolveEpisode, pyTruthy, hne]
  constructor
  · simp [locateFile, hres, afterTitleFallback, hmiss1]
  · simp [finalTitle, hmiss2]

theorem silent_identity_on_double_title_miss_witness :
    locateFile true (some 15) (fun _ _ => none) 2 3 = (2, 3, none) ∧
    finalTitle none 3 = natRepr 3 :=
  silent_identity_on_double_title_miss 15 2 3 (fun _ _ => none)
    (by omega) (by decide) (by decide)

/-- C10: in non-dry-run mode the log entry is recorded independently of
the rename outcome: when the rename call fails, the returned log still
ends with an entry recording the original name and the synthesised new
name — the log is not rolled back on rename error (lines 438-452). -/
theorem log_appended_despite_rename_failure (show_name : String) (is_anime : Bool)
    (ds de : Nat) (contFor : Nat → Nat → Option Nat)
    (titleOf : Nat → Nat → Option String)
    (filename suffix : String) (existing : List String) (log : List LogEntry)
    (hren : fileSynthesizedName show_name is_anime ds de (contFor ds de) titleOf
      filename suffix existing ≠ filename) :
    ∃ entry : LogEntry,
      processFile show_name is_anime (some (ds, de)) contFor titleOf filename suffix
        existing false false log = (log ++ [entry], some (entry.new_name, false)) ∧
      entry.original = filename ∧
      entry.new_name = fileSynthesizedName show_name is_anime ds de (contFor ds de)
        titleOf filename suffix existing := by
  refine ⟨⟨filename,
      sECode ds de,
      sECode (locateFile is_anime (contFor ds de) titleOf ds de).1
        (locateFile is_anime (contFor ds de) titleOf ds de).2.1,
      fileSynthesizedName show_name is_anime ds de (contFor ds de) titleOf filename suffix
        existing,
      finalTitle (locateFile is_anime (contFor ds de) titleOf ds de).2.2
        (locateFile is_anime (contFor ds de) titleOf ds de).2.1⟩, ?_, rfl, rfl⟩
  simp only [processFile]
  rw [if_neg hren]
  simp

theorem log_appended_despite_rename_failure_witness :
    fileSynthesizedName "A B" false 1 2 none (fun _ _ => none) "orig.mkv" ".mkv" []
      ≠ "orig.mkv" ∧
    ∃ entry : LogEntry,
      processFile "A B" false (some (1, 2)) (fun _ _ => none) (fun _ _ => none)
        "orig.mkv" ".mkv" [] false false [] = ([] ++ [entry], some (entry.new_name, false)) ∧
      entry.original = "orig.mkv" ∧
      entry.new_name = fileSynthesizedName "A B" false 1 2 none (fun _ _ => none)
        "orig.mkv" ".mkv" [] :=
  ⟨by decide,
    log_appended_despite_rename_failure "A B" false 1 2 (fun _ _ => none)
      (fun _ _ => none) "orig.mkv" ".mkv" [] [] (by decide)⟩

end MovieRename
